import Mathlib

/-!
Verification of the stock-watch freshness/cost layer.

Shallow embedding of:
- `src/lib/cache.ts` (`MemoryCache`, `RateLimiter`)
- `src/lib/market-data.ts` (`applyQualityFilters`, `fmpFetch`, `getQuote`, `searchStocks`)
- `src/lib/finnhub.ts` (`FinnhubRateLimiter`, `finnhubFetch`, `getQuote`, `getBatchQuotes`)
- `src/app/api/stock/search/route.ts` (analyze handler, `shouldInvalidateCache`)

JavaScript numbers are modelled as `ℚ`; millisecond timestamps as `ℕ`.
`Date.now()` is passed explicitly as a `now` parameter, and the current
calendar-day string (`new Date().toISOString().split('T')[0]`) as a `today`
parameter.  Mutation of singletons is modelled by explicit state passing.
-/

namespace StockWatch

/-- Millisecond timestamps, standing for `Date.now()` values. -/
abbrev Millis := ℕ

/-- `interface CacheEntry<T> { data: T; expiresAt: number }` from `src/lib/cache.ts`. -/
structure CacheEntry (V : Type) where
  data : V
  expiresAt : Millis
deriving Repr, DecidableEq

/-- The `MemoryCache` backing map (`Map<string, CacheEntry<unknown>>`),
modelled as a finite partial map from keys to entries. -/
def MemoryCache (V : Type) : Type := String → Option (CacheEntry V)

namespace MemoryCache

/-- The empty cache (a freshly constructed `MemoryCache`). -/
def empty {V : Type} : MemoryCache V := fun _ => none

/-- `MemoryCache.get` from `src/lib/cache.ts` lines 17-30: returns the entry's
data if present and unexpired; an expired entry is deleted and `null` returned.
The mutated map is returned alongside the result. -/
def get {V : Type} (c : MemoryCache V) (now : Millis) (key : String) :
    Option V × MemoryCache V :=
  match c key with
  | none => (none, c)
  | some entry =>
    if entry.expiresAt < now then
      (none, fun k => if k = key then none else c k)
    else
      (some entry.data, c)

/-- `MemoryCache.set` from `src/lib/cache.ts` lines 35-40:
stores `{ data, expiresAt: Date.now() + ttlMs }` unconditionally. -/
def set {V : Type} (c : MemoryCache V) (now : Millis) (key : String) (data : V)
    (ttlMs : ℕ) : MemoryCache V :=
  fun k => if k = key then some ⟨data, now + ttlMs⟩ else c k

/-- `MemoryCache.delete` from `src/lib/cache.ts` lines 52-54. -/
def delete {V : Type} (c : MemoryCache V) (key : String) : MemoryCache V :=
  fun k => if k = key then none else c k

end MemoryCache

/-- `CACHE_TTL.ANALYSIS` (6 hours, in ms) from `src/lib/cache.ts`. -/
def CACHE_TTL_ANALYSIS : ℕ := 6 * 60 * 60 * 1000

/-- `CACHE_TTL.QUOTE` (2 minutes, in ms) from `src/lib/cache.ts`. -/
def CACHE_TTL_QUOTE : ℕ := 2 * 60 * 1000

/-- `CACHE_TTL.SEARCH` (5 minutes, in ms) from `src/lib/cache.ts`. -/
def CACHE_TTL_SEARCH : ℕ := 5 * 60 * 1000

/-- `interface RateLimitState { dailyCalls: number; date: string }` from
`src/lib/cache.ts`. -/
structure RateLimitState where
  dailyCalls : ℕ
  date : String
deriving Repr, DecidableEq

/-- The `RateLimiter` class from `src/lib/cache.ts` lines 109-174:
mutable `state` plus the configured `maxDailyCalls`. -/
structure RateLimiter where
  state : RateLimitState
  maxDailyCalls : ℕ
deriving Repr, DecidableEq

namespace RateLimiter

/-- The `RateLimiter` constructor: zero calls, dated at the construction day. -/
def init (today : String) (maxDailyCalls : ℕ) : RateLimiter :=
  ⟨⟨0, today⟩, maxDailyCalls⟩

/-- `resetIfNewDay` from `src/lib/cache.ts` lines 165-173: if the stored date
differs from today, the counter resets to 0 and the date advances. -/
def resetIfNewDay (r : RateLimiter) (today : String) : RateLimiter :=
  if r.state.date ≠ today then ⟨⟨0, today⟩, r.maxDailyCalls⟩ else r

/-- `canMakeCall` from `src/lib/cache.ts` lines 128-131: lazily rolls the
window, then compares the count to the limit.  The mutated limiter is
returned alongside the boolean. -/
def canMakeCall (r : RateLimiter) (today : String) : Bool × RateLimiter :=
  let r' := r.resetIfNewDay today
  (r'.state.dailyCalls < r'.maxDailyCalls, r')

/-- `recordCall` from `src/lib/cache.ts` lines 136-139: lazily rolls the
window, then increments the count unconditionally. -/
def recordCall (r : RateLimiter) (today : String) : RateLimiter :=
  let r' := r.resetIfNewDay today
  ⟨⟨r'.state.dailyCalls + 1, r'.state.date⟩, r'.maxDailyCalls⟩

/-- Result shape of `getUsage` from `src/lib/cache.ts` lines 144-153. -/
structure Usage where
  used : ℕ
  limit : ℕ
  remaining : ℤ
  percentUsed : ℚ
deriving Repr, DecidableEq

/-- `getUsage` from `src/lib/cache.ts` lines 144-153; `remaining` clamps at 0
via `Math.max`. -/
def getUsage (r : RateLimiter) (today : String) : Usage × RateLimiter :=
  let r' := r.resetIfNewDay today
  ({ used := r'.state.dailyCalls
     limit := r'.maxDailyCalls
     remaining := max 0 ((r'.maxDailyCalls : ℤ) - (r'.state.dailyCalls : ℤ))
     percentUsed := (r'.state.dailyCalls : ℚ) / (r'.maxDailyCalls : ℚ) * 100 }, r')

end RateLimiter

/-- `recordN r today n` performs `n` successive `recordCall`s on day `today`. -/
def recordN (r : RateLimiter) (today : String) : ℕ → RateLimiter
  | 0 => r
  | n + 1 => (recordN r today n).recordCall today

/-- The three public operations of `RateLimiter`. -/
inductive LimiterOp where
  | check
  | record
  | usage
deriving Repr, DecidableEq

/-- One sequential run of limiter operations; each operation is paired with
the calendar-day string current at its invocation time. -/
def runOps (r : RateLimiter) : List (LimiterOp × String) → RateLimiter
  | [] => r
  | (op, d) :: rest =>
    let r' := match op with
      | .check => (r.canMakeCall d).2
      | .record => r.recordCall d
      | .usage => (r.getUsage d).2
    runOps r' rest

/-- Limiter states reachable under the guarded protocol the gateway code
follows: `recordCall` is only performed after a `canMakeCall` that returned
`true` (possibly on a later day `d'`, since the upstream fetch sits between
the check and the record in `fmpFetch`). -/
inductive GuardedReachable (L : ℕ) : RateLimiter → Prop
  | start (d : String) : GuardedReachable L (RateLimiter.init d L)
  | step_check (r : RateLimiter) (d : String) :
      GuardedReachable L r → GuardedReachable L (r.canMakeCall d).2
  | step_usage (r : RateLimiter) (d : String) :
      GuardedReachable L r → GuardedReachable L (r.getUsage d).2
  | step_record (r : RateLimiter) (d d' : String) :
      GuardedReachable L r → (r.canMakeCall d).1 = true →
      GuardedReachable L (((r.canMakeCall d).2).recordCall d')

theorem recordN_state (d : String) (L n : ℕ) :
    (recordN (RateLimiter.init d L) d n).state = ⟨n, d⟩ ∧
    (recordN (RateLimiter.init d L) d n).maxDailyCalls = L := by
  induction n with
  | zero => exact ⟨rfl, rfl⟩
  | succ n ih =>
    obtain ⟨h1, h2⟩ := ih
    refine ⟨?_, ?_⟩ <;>
      simp [recordN, RateLimiter.recordCall, RateLimiter.resetIfNewDay, h1, h2]

/-- Claim C4: `get(k)` immediately after `set(k, v, ttl)` returns `v`;
`get(k)` at any time strictly after set-time + ttl returns absent and deletes
the entry, so no subsequent `get` ever returns the expired entry. -/
theorem cache_ttl_correct {V : Type} (c : MemoryCache V) (t : Millis) (k : String)
    (v : V) (ttl : ℕ) :
    ((MemoryCache.set c t k v ttl).get t k).1 = some v ∧
    ∀ t', t + ttl < t' →
      ((MemoryCache.set c t k v ttl).get t' k).1 = none ∧
      (((MemoryCache.set c t k v ttl).get t' k).2) k = none ∧
      ∀ t'', (((((MemoryCache.set c t k v ttl).get t' k).2)).get t'' k).1 = none := by
  refine ⟨?_, fun t' ht' => ⟨?_, ?_, fun t'' => ?_⟩⟩
  · simp [MemoryCache.get, MemoryCache.set]
  · simp [MemoryCache.get, MemoryCache.set, ht']
  · simp [MemoryCache.get, MemoryCache.set, ht']
  · simp [MemoryCache.get, MemoryCache.set, ht']

theorem cache_ttl_correct_witness :
    ((MemoryCache.set ((MemoryCache.empty : MemoryCache ℕ)) 0 "k" 7 5).get 0 "k").1 = some 7 ∧
    ((MemoryCache.set ((MemoryCache.empty : MemoryCache ℕ)) 0 "k" 7 5).get 6 "k").1 = none := by
  have h := cache_ttl_correct ((MemoryCache.empty : MemoryCache ℕ)) 0 "k" 7 5
  exact ⟨h.1, (h.2 6 (by decide)).1⟩

/-- Claim C5: starting from a fresh limiter on day `d` with positive limit
`L`, every `canMakeCall` before each of the first `N ≤ L` recorded calls is
true; after the `L`-th call it is false; and on a new day `d'` the next
`canMakeCall` is true again, having lazily reset the count to 0. -/
theorem limiter_window (L N : ℕ) (d d' : String) (hL : 0 < L) (hN : N ≤ L)
    (hd : d' ≠ d) :
    (∀ k, k < N → ((recordN (RateLimiter.init d L) d k).canMakeCall d).1 = true) ∧
    ((recordN (RateLimiter.init d L) d L).canMakeCall d).1 = false ∧
    ((recordN (RateLimiter.init d L) d L).canMakeCall d').1 = true ∧
    ((recordN (RateLimiter.init d L) d L).canMakeCall d').2.state.dailyCalls = 0 := by
  refine ⟨fun k hk => ?_, ?_, ?_, ?_⟩
  · obtain ⟨h1, h2⟩ := recordN_state d L k
    simp [RateLimiter.canMakeCall, RateLimiter.resetIfNewDay, h1, h2]
    omega
  · obtain ⟨h1, h2⟩ := recordN_state d L L
    simp [RateLimiter.canMakeCall, RateLimiter.resetIfNewDay, h1, h2]
  · obtain ⟨h1, h2⟩ := recordN_state d L L
    simp [RateLimiter.canMakeCall, RateLimiter.resetIfNewDay, h1, h2, Ne.symm hd, hL]
  · obtain ⟨h1, h2⟩ := recordN_state d L L
    simp [RateLimiter.canMakeCall, RateLimiter.resetIfNewDay, h1, h2, Ne.symm hd]

theorem limiter_window_witness :
    (((recordN (RateLimiter.init "2024-01-01" 3) "2024-01-01" 1).canMakeCall
        "2024-01-01").1 = true) ∧
    (((recordN (RateLimiter.init "2024-01-01" 3) "2024-01-01" 3).canMakeCall
        "2024-01-01").1 = false) ∧
    (((recordN (RateLimiter.init "2024-01-01" 3) "2024-01-01" 3).canMakeCall
        "2024-01-02").1 = true) := by
  have h := limiter_window 3 2 "2024-01-01" "2024-01-02" (by decide) (by decide)
    (by decide)
  exact ⟨h.1 1 (by decide), h.2.1, h.2.2.1⟩

/-- Claim C6, counterexample: the claim quantifies over every sequence of
`canMakeCall`/`recordCall`/`getUsage` operations, but `recordCall` increments
unconditionally — two unguarded `recordCall`s against a limit of 1 drive the
stored count to 2, exceeding the limit. -/
theorem limiter_overflow_cex :
    ¬ ((runOps (RateLimiter.init "2024-01-01" 1)
        [(.record, "2024-01-01"), (.record, "2024-01-01")]).state.dailyCalls ≤ 1) := by
  decide

/-- Claim C6, amended: `count ≤ limit` holds for every limiter state reachable
under the guarded protocol in which each `recordCall` follows a `canMakeCall`
that returned true; the limiter itself never clamps the stored count. -/
theorem limiter_guarded_invariant (L : ℕ) (r : RateLimiter)
    (h : GuardedReachable L r) :
    r.state.dailyCalls ≤ L ∧ r.maxDailyCalls = L := by
  induction h with
  | start d => exact ⟨Nat.zero_le L, rfl⟩
  | step_check r d _ ih =>
    obtain ⟨h1, h2⟩ := ih
    simp only [RateLimiter.canMakeCall, RateLimiter.resetIfNewDay]
    by_cases hd : r.state.date ≠ d <;> simp [hd, h1, h2]
  | step_usage r d _ ih =>
    obtain ⟨h1, h2⟩ := ih
    simp only [RateLimiter.getUsage, RateLimiter.resetIfNewDay]
    by_cases hd : r.state.date ≠ d <;> simp [hd, h1, h2]
  | step_record r d d' _ hcan ih =>
    obtain ⟨h1, h2⟩ := ih
    simp only [RateLimiter.canMakeCall, RateLimiter.resetIfNewDay] at hcan ⊢
    by_cases hd : r.state.date ≠ d
    · simp only [if_pos hd] at hcan ⊢
      simp only [decide_eq_true_eq] at hcan
      simp only [RateLimiter.recordCall, RateLimiter.resetIfNewDay]
      by_cases hd' : d ≠ d' <;> simp [hd', h2] <;> omega
    · simp only [if_neg hd] at hcan ⊢
      simp only [decide_eq_true_eq] at hcan
      simp only [RateLimiter.recordCall, RateLimiter.resetIfNewDay]
      by_cases hd' : r.state.date ≠ d' <;> simp [hd', h2] <;> omega

theorem limiter_guarded_invariant_witness :
    (((RateLimiter.init "2024-01-01" 2).canMakeCall "2024-01-01").2.recordCall
      "2024-01-01").state.dailyCalls ≤ 2 := by
  exact (limiter_guarded_invariant 2 _
    (GuardedReachable.step_record _ "2024-01-01" "2024-01-01"
      (GuardedReachable.start "2024-01-01") (by decide))).1

/-- JavaScript `String.prototype.toUpperCase()`, character by character.
(`String.toUpper` in core Lean is the same map but is defined by well-founded
recursion, which the kernel cannot evaluate.) -/
def jsToUpper (s : String) : String := ⟨s.data.map Char.toUpper⟩

/-- JavaScript `String.prototype.toLowerCase()`, character by character. -/
def jsToLower (s : String) : String := ⟨s.data.map Char.toLower⟩

/-- JavaScript `String.prototype.trim()`: strip leading and trailing
whitespace. -/
def jsTrim (s : String) : String :=
  ⟨((s.data.dropWhile Char.isWhitespace).reverse.dropWhile
      Char.isWhitespace).reverse⟩

/-- The app-level `Quote` shape from `src/types/index.ts`.  The `open` field is
renamed `openPrice` (Lean keyword); the ISO `timestamp` string is modelled as
the millisecond value it renders. -/
structure Quote where
  ticker : String
  price : ℚ
  openPrice : ℚ
  high : ℚ
  low : ℚ
  previousClose : ℚ
  volume : ℚ
  change : ℚ
  changePercent : ℚ
  timestamp : ℕ
deriving Repr, DecidableEq

/-- `interface CachedAnalysis { analysis: StockAnalysis; priceAtAnalysis: number }`
from the analyze handler in `src/app/api/stock/search/route.ts`.  The analysis
payload is opaque to the invalidation logic, so it is a type parameter. -/
structure CachedAnalysis (A : Type) where
  analysis : A
  priceAtAnalysis : ℚ
deriving Repr, DecidableEq

/-- `shouldInvalidateCache` from `src/app/api/stock/search/route.ts` lines
191-198: invalidate when the absolute price change exceeds 5 percent of the
price at analysis time. -/
def shouldInvalidateCache {A : Type} (cached : CachedAnalysis A)
    (currentPrice : ℚ) : Bool :=
  let priceDiff := |currentPrice - cached.priceAtAnalysis|
  let percentChange := priceDiff / cached.priceAtAnalysis * 100
  decide (percentChange > 5)

/-- Possible responses of the analyze `POST` handler (the parts the freshness
layer determines; HTTP status codes and JSON shapes are elided). -/
inductive AnalyzeOutcome (A : Type) where
  | badRequest
  | configError
  | quoteError (msg : String)
  | servedCached (a : A)
  | fresh (a : A)
deriving Repr, DecidableEq

/-- The analyze `POST` handler from `src/app/api/stock/search/route.ts` lines
208-290, as a function of its inputs: the analysis cache, the clock, whether
`ANTHROPIC_API_KEY` is configured, the request body, the result of the
current-quote fetch, and the analysis the reasoning call would produce.  The
optional fundamentals fetch (errors swallowed) and the response metadata
(`cacheAge`) do not affect the cache decision and are elided. -/
def analyzePost {A : Type} (cache : MemoryCache (CachedAnalysis A)) (now : Millis)
    (apiKeyConfigured : Bool) (ticker : String) (forceRefresh : Bool)
    (quoteResult : Except String Quote) (runAnalysis : A) :
    AnalyzeOutcome A × MemoryCache (CachedAnalysis A) :=
  if ticker = "" then (.badRequest, cache)
  else
    let cacheKey := "analysis:" ++ jsToUpper ticker
    if !apiKeyConfigured then (.configError, cache)
    else
      match quoteResult with
      | .error e => (.quoteError e, cache)
      | .ok quote =>
        let runFresh : MemoryCache (CachedAnalysis A) →
            AnalyzeOutcome A × MemoryCache (CachedAnalysis A) := fun c =>
          (.fresh runAnalysis,
           c.set now cacheKey ⟨runAnalysis, quote.price⟩ CACHE_TTL_ANALYSIS)
        if !forceRefresh then
          match cache.get now cacheKey with
          | (some cached, c1) =>
            if !(shouldInvalidateCache cached quote.price) then
              (.servedCached cached.analysis, c1)
            else
              runFresh (c1.delete cacheKey)
          | (none, c1) => runFresh c1
        else runFresh cache

theorem shouldInvalidateCache_eq_false_iff {A : Type} (cached : CachedAnalysis A)
    (p : ℚ) :
    shouldInvalidateCache cached p = false ↔
      |p - cached.priceAtAnalysis| / cached.priceAtAnalysis ≤ 5 / 100 := by
  simp only [shouldInvalidateCache, decide_eq_false_iff_not, not_lt]
  constructor
  · intro h
    nlinarith [h]
  · intro h
    nlinarith [h]

theorem analyzePost_eval_served {A : Type} (cache : MemoryCache (CachedAnalysis A))
    (now : Millis) (ticker : String) (quote : Quote) (runAnalysis : A)
    (cached : CachedAnalysis A) (ht : ticker ≠ "")
    (hget : (cache.get now ("analysis:" ++ jsToUpper ticker)).1 = some cached)
    (hfalse : shouldInvalidateCache cached quote.price = false) :
    analyzePost cache now true ticker false (.ok quote) runAnalysis =
      (.servedCached cached.analysis,
       (cache.get now ("analysis:" ++ jsToUpper ticker)).2) := by
  rcases hpair : cache.get now ("analysis:" ++ jsToUpper ticker) with ⟨o, c1⟩
  rw [hpair] at hget
  simp only at hget
  subst hget
  simp [analyzePost, ht, hpair, hfalse]

theorem analyzePost_eval_invalidated {A : Type}
    (cache : MemoryCache (CachedAnalysis A)) (now : Millis) (ticker : String)
    (quote : Quote) (runAnalysis : A) (cached : CachedAnalysis A)
    (ht : ticker ≠ "")
    (hget : (cache.get now ("analysis:" ++ jsToUpper ticker)).1 = some cached)
    (htrue : shouldInvalidateCache cached quote.price = true) :
    analyzePost cache now true ticker false (.ok quote) runAnalysis =
      (.fresh runAnalysis,
       ((cache.get now ("analysis:" ++ jsToUpper ticker)).2.delete
          ("analysis:" ++ jsToUpper ticker)).set now
         ("analysis:" ++ jsToUpper ticker) ⟨runAnalysis, quote.price⟩
         CACHE_TTL_ANALYSIS) := by
  rcases hpair : cache.get now ("analysis:" ++ jsToUpper ticker) with ⟨o, c1⟩
  rw [hpair] at hget
  simp only at hget
  subst hget
  simp [analyzePost, ht, hpair, htrue]

/-- Claim C1: with the TTL unexpired (the cache read returns the record) and no
force-refresh, the analyze handler serves the cached record iff the relative
price drift is at most 5 percent; when the drift exceeds 5 percent the old
record is evicted (deleted) and a fresh analysis is stored and returned. -/
theorem analyze_price_drift {A : Type} (cache : MemoryCache (CachedAnalysis A))
    (now : Millis) (ticker : String) (quote : Quote) (runAnalysis : A)
    (cached : CachedAnalysis A) (ht : ticker ≠ "")
    (hget : (cache.get now ("analysis:" ++ jsToUpper ticker)).1 = some cached) :
    ((analyzePost cache now true ticker false (.ok quote) runAnalysis).1 =
        .servedCached cached.analysis ↔
      |quote.price - cached.priceAtAnalysis| / cached.priceAtAnalysis ≤ 5 / 100) ∧
    (¬ (|quote.price - cached.priceAtAnalysis| / cached.priceAtAnalysis ≤ 5 / 100) →
      analyzePost cache now true ticker false (.ok quote) runAnalysis =
        (.fresh runAnalysis,
         ((cache.get now ("analysis:" ++ jsToUpper ticker)).2.delete
            ("analysis:" ++ jsToUpper ticker)).set now
           ("analysis:" ++ jsToUpper ticker) ⟨runAnalysis, quote.price⟩
           CACHE_TTL_ANALYSIS)) := by
  constructor
  · rw [← shouldInvalidateCache_eq_false_iff cached quote.price]
    constructor
    · intro hserved
      cases hinv : shouldInvalidateCache cached quote.price with
      | false => rfl
      | true =>
        rw [analyzePost_eval_invalidated cache now ticker quote runAnalysis cached
          ht hget hinv] at hserved
        simp at hserved
    · intro hfalse
      rw [analyzePost_eval_served cache now ticker quote runAnalysis cached ht
        hget hfalse]
  · intro hdrift
    rw [← shouldInvalidateCache_eq_false_iff cached quote.price]
      at hdrift
    exact analyzePost_eval_invalidated cache now ticker quote runAnalysis cached
      ht hget (by simpa using hdrift)

theorem analyze_price_drift_witness :
    (analyzePost
        (MemoryCache.set ((MemoryCache.empty : MemoryCache (CachedAnalysis ℕ))) 0
          "analysis:AAPL" ⟨41, 100⟩ CACHE_TTL_ANALYSIS)
        3600000 true "AAPL" false
        (.ok ⟨"AAPL", 104, 0, 0, 0, 0, 0, 0, 0, 0⟩) 99).1 =
      AnalyzeOutcome.servedCached 41 ∧
    (analyzePost
        (MemoryCache.set ((MemoryCache.empty : MemoryCache (CachedAnalysis ℕ))) 0
          "analysis:AAPL" ⟨41, 100⟩ CACHE_TTL_ANALYSIS)
        3600000 true "AAPL" false
        (.ok ⟨"AAPL", 106, 0, 0, 0, 0, 0, 0, 0, 0⟩) 99).1 =
      AnalyzeOutcome.fresh 99 := by
  constructor
  · exact (analyze_price_drift _ 3600000 "AAPL" _ 99 ⟨41, 100⟩ (by decide)
      (by decide)).1.mpr (by norm_num)
  · exact congrArg Prod.fst ((analyze_price_drift _ 3600000 "AAPL" _ 99 ⟨41, 100⟩
      (by decide) (by decide)).2 (by norm_num))

/-- Modelled from the spec (data model §3): a `MacroSnapshot` of the macro
indicators the invalidation policy is said to compare.  The implementation's
`CachedAnalysis` stores no such snapshot, so this type exists only to state
the macro-trigger claim against the code. -/
structure MacroSnapshot where
  volatilityIndex : ℚ
  longYield : ℚ
  dollarIndex : ℚ
deriving Repr, DecidableEq

/-- Follows the spec's words (§4.5): a macro trigger fires when the volatility
index moved more than 3 points, the long yield moved more than 0.1 percentage
points, or the dollar index moved more than 1 percent since generation. -/
def specMacroTriggerFired (atGeneration current : MacroSnapshot) : Bool :=
  decide (|current.volatilityIndex - atGeneration.volatilityIndex| > 3) ||
  decide (|current.longYield - atGeneration.longYield| > 1 / 10) ||
  decide (|current.dollarIndex - atGeneration.dollarIndex| /
      atGeneration.dollarIndex > 1 / 100)

/-- Claim C2, counterexample: the volatility index moves from 16 to 20 (a
macro trigger per the spec), the price is unchanged at 100, and the TTL is
unexpired — yet the analyze handler serves the cached record.  The handler's
invalidation check (`shouldInvalidateCache`) reads no macro data at all. -/
theorem analyze_macro_cex :
    specMacroTriggerFired ⟨16, 42 / 10, 102⟩ ⟨20, 42 / 10, 102⟩ = true ∧
    (analyzePost
        (MemoryCache.set ((MemoryCache.empty : MemoryCache (CachedAnalysis ℕ))) 0
          "analysis:AAPL" ⟨41, 100⟩ CACHE_TTL_ANALYSIS)
        3600000 true "AAPL" false
        (.ok ⟨"AAPL", 100, 0, 0, 0, 0, 0, 0, 0, 0⟩) 99).1 =
      AnalyzeOutcome.servedCached 41 := by
  constructor
  · simp only [specMacroTriggerFired, Bool.or_eq_true, decide_eq_true_eq]
    left; left
    norm_num
  · rw [analyzePost_eval_served _ 3600000 "AAPL" _ 99 ⟨41, 100⟩ (by decide)
      (by decide) (by norm_num [shouldInvalidateCache])]

/-- Claim C2, amended: the implementation stores no macro snapshot and checks
no macro trigger; a cached record whose TTL is unexpired and whose price drift
is at most 5 percent is served regardless of how the macro indicators moved
since generation (the macro snapshots below are not inputs of the handler). -/
theorem analyze_no_macro_trigger {A : Type} (cache : MemoryCache (CachedAnalysis A))
    (now : Millis) (ticker : String) (quote : Quote) (runAnalysis : A)
    (cached : CachedAnalysis A) (atGeneration current : MacroSnapshot)
    (_hfired : specMacroTriggerFired atGeneration current = true)
    (ht : ticker ≠ "")
    (hget : (cache.get now ("analysis:" ++ jsToUpper ticker)).1 = some cached)
    (hdrift : |quote.price - cached.priceAtAnalysis| / cached.priceAtAnalysis ≤
      5 / 100) :
    (analyzePost cache now true ticker false (.ok quote) runAnalysis).1 =
      AnalyzeOutcome.servedCached cached.analysis := by
  rw [analyzePost_eval_served cache now ticker quote runAnalysis cached ht hget
    ((shouldInvalidateCache_eq_false_iff cached quote.price).mpr hdrift)]

theorem analyze_no_macro_trigger_witness :
    (analyzePost
        (MemoryCache.set ((MemoryCache.empty : MemoryCache (CachedAnalysis ℕ))) 0
          "analysis:MSFT" ⟨7, 200⟩ CACHE_TTL_ANALYSIS)
        60000 true "MSFT" false
        (.ok ⟨"MSFT", 204, 0, 0, 0, 0, 0, 0, 0, 0⟩) 99).1 =
      AnalyzeOutcome.servedCached 7 := by
  exact analyze_no_macro_trigger _ 60000 "MSFT" _ 99 ⟨7, 200⟩
    ⟨16, 42 / 10, 102⟩ ⟨20, 42 / 10, 102⟩
    (by simp only [specMacroTriggerFired, Bool.or_eq_true, decide_eq_true_eq]
        left; left; norm_num)
    (by decide) (by decide) (by norm_num)

/-- Claim C3: when the current-quote fetch fails, the analyze handler returns
the quote-error response, leaves the cache untouched, and never returns any
cached analysis record. -/
theorem analyze_fail_closed {A : Type} (cache : MemoryCache (CachedAnalysis A))
    (now : Millis) (ticker : String) (e : String) (runAnalysis : A)
    (forceRefresh : Bool) (ht : ticker ≠ "") :
    analyzePost cache now true ticker forceRefresh (.error e) runAnalysis =
      (.quoteError e, cache) ∧
    ∀ a : A, (analyzePost cache now true ticker forceRefresh (.error e)
      runAnalysis).1 ≠ AnalyzeOutcome.servedCached a := by
  refine ⟨?_, fun a => ?_⟩
  · simp [analyzePost, ht]
  · simp [analyzePost, ht]

theorem analyze_fail_closed_witness :
    (analyzePost
        (MemoryCache.set ((MemoryCache.empty : MemoryCache (CachedAnalysis ℕ))) 0
          "analysis:AAPL" ⟨41, 100⟩ CACHE_TTL_ANALYSIS)
        3600000 true "AAPL" false (.error "Failed to fetch quote") 99).1 =
      AnalyzeOutcome.quoteError "Failed to fetch quote" := by
  exact congrArg Prod.fst (analyze_fail_closed _ 3600000 "AAPL"
    "Failed to fetch quote" 99 false (by decide)).1

/-- The app-level `Stock` shape from `src/types/index.ts`; `volume` and
`avgVolume` are optional fields. -/
structure Stock where
  ticker : String
  name : String
  price : ℚ
  change : ℚ
  changePercent : ℚ
  marketCap : ℚ
  sector : String
  exchange : String
  volume : Option ℚ
  avgVolume : Option ℚ
deriving Repr, DecidableEq

/-- `interface QualityFilters` from `src/lib/market-data.ts` lines 41-46. -/
structure QualityFilters where
  minMarketCap : ℚ
  minPrice : ℚ
  minVolume : ℚ
  allowedExchanges : List String
deriving Repr, DecidableEq

/-- `DEFAULT_QUALITY_FILTERS` from `src/lib/market-data.ts` lines 48-53. -/
def DEFAULT_QUALITY_FILTERS : QualityFilters :=
  { minMarketCap := 500000000
    minPrice := 5
    minVolume := 500000
    allowedExchanges := ["NYSE", "NASDAQ", "AMEX"] }

/-- The volume used by the filter: `stock.avgVolume ?? stock.volume ?? 0`. -/
def volumeForFilter (s : Stock) : ℚ := s.avgVolume.getD (s.volume.getD 0)

/-- Market-cap threshold conjunct of the quality filter. -/
def capOk (f : QualityFilters) (s : Stock) : Bool :=
  decide (f.minMarketCap ≤ s.marketCap)

/-- Price threshold conjunct of the quality filter. -/
def priceOk (f : QualityFilters) (s : Stock) : Bool :=
  decide (f.minPrice ≤ s.price)

/-- Volume threshold conjunct of the quality filter. -/
def volumeOk (f : QualityFilters) (s : Stock) : Bool :=
  decide (f.minVolume ≤ volumeForFilter s)

/-- Exchange-membership conjunct of the quality filter. -/
def exchangeOk (f : QualityFilters) (s : Stock) : Bool :=
  f.allowedExchanges.contains s.exchange

/-- `applyQualityFilters` from `src/lib/market-data.ts` lines 58-68: keeps
exactly the stocks satisfying all four thresholds (logical AND). -/
def applyQualityFilters (stocks : List Stock)
    (filters : QualityFilters) : List Stock :=
  stocks.filter fun stock =>
    decide (filters.minMarketCap ≤ stock.marketCap) &&
    decide (filters.minPrice ≤ stock.price) &&
    decide (filters.minVolume ≤ volumeForFilter stock) &&
    filters.allowedExchanges.contains stock.exchange

theorem applyQualityFilters_eq_all (stocks : List Stock) (f : QualityFilters) :
    applyQualityFilters stocks f =
      stocks.filter fun s =>
        [capOk f, priceOk f, volumeOk f, exchangeOk f].all fun p => p s := by
  apply List.filter_congr
  intro s _
  simp [capOk, priceOk, volumeOk, exchangeOk, Bool.and_assoc]

/-- Claim C8: the quality filter is the pure conjunction of the four threshold
predicates — membership in its output is exactly membership in each of the
four independently filtered lists (the intersection), and replacing the
canonical predicate list by any permutation of it yields the same output, so
the order of predicate application is irrelevant. -/
theorem quality_filter_intersection (stocks : List Stock) (f : QualityFilters) :
    (∀ s, s ∈ applyQualityFilters stocks f ↔
      s ∈ stocks.filter (capOk f) ∧ s ∈ stocks.filter (priceOk f) ∧
      s ∈ stocks.filter (volumeOk f) ∧ s ∈ stocks.filter (exchangeOk f)) ∧
    (∀ ps : List (Stock → Bool),
      ps.Perm [capOk f, priceOk f, volumeOk f, exchangeOk f] →
      applyQualityFilters stocks f =
        stocks.filter fun s => ps.all fun p => p s) := by
  constructor
  · intro s
    rw [applyQualityFilters_eq_all]
    simp only [List.mem_filter, List.all_cons, List.all_nil, Bool.and_true,
      Bool.and_eq_true]
    tauto
  · intro ps hperm
    rw [applyQualityFilters_eq_all]
    apply List.filter_congr
    intro s _
    have hmem : ∀ p : Stock → Bool,
        p ∈ ps ↔ p ∈ [capOk f, priceOk f, volumeOk f, exchangeOk f] :=
      fun p => hperm.mem_iff
    rcases hall : ps.all fun p => p s with hb | hb
    · rcases hall' : [capOk f, priceOk f, volumeOk f, exchangeOk f].all
        fun p => p s with hb' | hb'
      · rfl
      · exfalso
        rw [List.all_eq_true] at hall'
        rw [List.all_eq_false] at hall
        obtain ⟨p, hp, hps⟩ := hall
        exact hps (hall' p ((hmem p).mp hp))
    · rcases hall' : [capOk f, priceOk f, volumeOk f, exchangeOk f].all
        fun p => p s with hb' | hb'
      · exfalso
        rw [List.all_eq_true] at hall
        rw [List.all_eq_false] at hall'
        obtain ⟨p, hp, hps⟩ := hall'
        exact hps (hall p ((hmem p).mpr hp))
      · rfl

theorem quality_filter_intersection_witness :
    applyQualityFilters
        [⟨"AAA", "A", 10, 0, 0, 600000000, "Tech", "NYSE", some 600000, none⟩,
         ⟨"BBB", "B", 3, 0, 0, 600000000, "Tech", "NYSE", some 600000, none⟩]
        DEFAULT_QUALITY_FILTERS =
      List.filter
        (fun s =>
          [priceOk DEFAULT_QUALITY_FILTERS, capOk DEFAULT_QUALITY_FILTERS,
           volumeOk DEFAULT_QUALITY_FILTERS,
           exchangeOk DEFAULT_QUALITY_FILTERS].all fun p => p s)
        [⟨"AAA", "A", 10, 0, 0, 600000000, "Tech", "NYSE", some 600000, none⟩,
         ⟨"BBB", "B", 3, 0, 0, 600000000, "Tech", "NYSE", some 600000, none⟩] := by
  exact (quality_filter_intersection _ DEFAULT_QUALITY_FILTERS).2
    [priceOk DEFAULT_QUALITY_FILTERS, capOk DEFAULT_QUALITY_FILTERS,
     volumeOk DEFAULT_QUALITY_FILTERS, exchangeOk DEFAULT_QUALITY_FILTERS]
    (List.Perm.swap (capOk DEFAULT_QUALITY_FILTERS)
      (priceOk DEFAULT_QUALITY_FILTERS) _)

/-- The error conditions `FMPError` distinguishes that matter to the gateway
logic: the quota refusal thrown before any fetch, upstream failures
(thrown fetches, non-2xx statuses, FMP error payloads), and the
"no quote found" condition. -/
inductive FmpError where
  | quotaExhausted
  | upstream (msg : String)
  | noQuote (ticker : String)
deriving Repr, DecidableEq

/-- Oracle for one `fetch` to the upstream API: the outer `Except` is the
`fetch` call itself throwing (before `recordCall` runs); the inner `Except`
is the post-fetch processing (non-ok status or FMP error payload) versus the
parsed payload. -/
abbrev FetchOutcome (T : Type) := Except String (Except String T)

/-- `fmpFetch` from `src/lib/market-data.ts` lines 230-287: checks
`canMakeCall` first and throws the quota error without fetching or recording;
otherwise performs the fetch (counted in `upstreamCalls`), records the call
once the fetch returns, and propagates processing errors. -/
def fmpFetch {T : Type} (lim : RateLimiter) (today : String) (upstreamCalls : ℕ)
    (outcome : FetchOutcome T) : Except FmpError T × RateLimiter × ℕ :=
  match lim.canMakeCall today with
  | (false, lim1) => (.error .quotaExhausted, lim1, upstreamCalls)
  | (true, lim1) =>
    match outcome with
    | .error e => (.error (.upstream e), lim1, upstreamCalls + 1)
    | .ok resp =>
      let lim2 := lim1.recordCall today
      match resp with
      | .error e => (.error (.upstream e), lim2, upstreamCalls + 1)
      | .ok t => (.ok t, lim2, upstreamCalls + 1)

/-- `interface FMPQuote` from `src/lib/market-data.ts` lines 127-149
(`open` renamed `openPrice`; the timestamp is kept numeric). -/
structure FMPQuote where
  symbol : String
  name : String
  price : ℚ
  changesPercentage : ℚ
  change : ℚ
  dayLow : ℚ
  dayHigh : ℚ
  yearHigh : ℚ
  yearLow : ℚ
  marketCap : ℚ
  priceAvg50 : ℚ
  priceAvg200 : ℚ
  exchange : String
  volume : ℚ
  avgVolume : ℚ
  openPrice : ℚ
  previousClose : ℚ
  eps : ℚ
  pe : ℚ
  sharesOutstanding : ℚ
  timestamp : ℕ
deriving Repr, DecidableEq

/-- The FMP-side state the gateway operations thread: the server cache
(projected to this operation's value type), the shared FMP rate limiter, and
a count of upstream fetches actually attempted. -/
structure GatewayState (V : Type) where
  cache : MemoryCache V
  limiter : RateLimiter
  upstreamCalls : ℕ

/-- The `Quote` built from `quotes[0]` in `getQuote`
(`src/lib/market-data.ts` lines 386-398). -/
def fmpQuoteToQuote (q : FMPQuote) : Quote :=
  { ticker := q.symbol
    price := q.price
    openPrice := q.openPrice
    high := q.dayHigh
    low := q.dayLow
    previousClose := q.previousClose
    volume := q.volume
    change := q.change
    changePercent := q.changesPercentage
    timestamp := q.timestamp * 1000 }

/-- `getQuote` from `src/lib/market-data.ts` lines 372-403: cache hit returns
immediately (no rate-limit check, no fetch); otherwise `fmpFetch` runs, an
empty quote list is the `noQuote` error, and a fresh quote is cached for
`CACHE_TTL.QUOTE`. -/
def getQuoteFMP (st : GatewayState Quote) (now : Millis) (today : String)
    (ticker : String) (outcome : FetchOutcome (List FMPQuote)) :
    Except FmpError Quote × GatewayState Quote :=
  let cacheKey := "quote:" ++ jsToUpper ticker
  match st.cache.get now cacheKey with
  | (some q, c1) => (.ok q, { st with cache := c1 })
  | (none, c1) =>
    match fmpFetch st.limiter today st.upstreamCalls outcome with
    | (.error e, lim1, calls1) => (.error e, ⟨c1, lim1, calls1⟩)
    | (.ok quotes, lim1, calls1) =>
      match quotes with
      | [] => (.error (.noQuote ticker), ⟨c1, lim1, calls1⟩)
      | q :: _ =>
        let quote := fmpQuoteToQuote q
        (.ok quote,
         ⟨c1.set now cacheKey quote CACHE_TTL_QUOTE, lim1, calls1⟩)

/-- Claim C7: a cached unexpired quote is returned with no upstream call and
no rate-limit interaction (limiter bit-for-bit unchanged); on a cache miss
with `canMakeCall()` false the operation fails with the quota-exhausted error
before any upstream call, with no call recorded (the count after equals the
count after the lazy day-rollover alone). -/
theorem gateway_cache_and_quota (st : GatewayState Quote) (now : Millis)
    (today ticker : String) (outcome : FetchOutcome (List FMPQuote)) :
    (∀ q, (st.cache.get now ("quote:" ++ jsToUpper ticker)).1 = some q →
      (getQuoteFMP st now today ticker outcome).1 = .ok q ∧
      (getQuoteFMP st now today ticker outcome).2.limiter = st.limiter ∧
      (getQuoteFMP st now today ticker outcome).2.upstreamCalls =
        st.upstreamCalls) ∧
    ((st.cache.get now ("quote:" ++ jsToUpper ticker)).1 = none →
      (st.limiter.canMakeCall today).1 = false →
      (getQuoteFMP st now today ticker outcome).1 = .error .quotaExhausted ∧
      (getQuoteFMP st now today ticker outcome).2.upstreamCalls =
        st.upstreamCalls ∧
      (getQuoteFMP st now today ticker outcome).2.limiter =
        (st.limiter.canMakeCall today).2) := by
  rcases hpair : st.cache.get now ("quote:" ++ jsToUpper ticker) with ⟨o, c1⟩
  constructor
  · intro q hq
    have ho : o = some q := hq
    subst ho
    refine ⟨?_, ?_, ?_⟩ <;> simp [getQuoteFMP, hpair]
  · intro hmiss hcan
    have ho : o = none := hmiss
    subst ho
    rcases hcm : st.limiter.canMakeCall today with ⟨b, lim1⟩
    rw [hcm] at hcan
    have hb : b = false := hcan
    subst hb
    refine ⟨?_, ?_, ?_⟩ <;> simp [getQuoteFMP, fmpFetch, hpair, hcm]

theorem gateway_cache_and_quota_witness :
    ((getQuoteFMP
        ⟨MemoryCache.set MemoryCache.empty 0 "quote:AAPL"
           ⟨"AAPL", 100, 0, 0, 0, 0, 0, 0, 0, 0⟩ CACHE_TTL_QUOTE,
         RateLimiter.init "2024-01-01" 250, 5⟩
        60000 "2024-01-01" "AAPL" (.ok (.ok []))).1 =
      Except.ok (⟨"AAPL", 100, 0, 0, 0, 0, 0, 0, 0, 0⟩ : Quote)) ∧
    ((getQuoteFMP
        ⟨MemoryCache.empty, ⟨⟨250, "2024-01-01"⟩, 250⟩, 5⟩
        60000 "2024-01-01" "AAPL" (.ok (.ok []))).1 =
      Except.error FmpError.quotaExhausted) ∧
    ((getQuoteFMP
        ⟨MemoryCache.empty, ⟨⟨250, "2024-01-01"⟩, 250⟩, 5⟩
        60000 "2024-01-01" "AAPL" (.ok (.ok []))).2.upstreamCalls = 5) := by
  refine ⟨?_, ?_, ?_⟩
  · exact ((gateway_cache_and_quota _ 60000 "2024-01-01" "AAPL"
      (.ok (.ok []))).1 _ (by decide)).1
  · exact ((gateway_cache_and_quota _ 60000 "2024-01-01" "AAPL"
      (.ok (.ok []))).2 (by decide) (by decide)).1
  · exact ((gateway_cache_and_quota _ 60000 "2024-01-01" "AAPL"
      (.ok (.ok []))).2 (by decide) (by decide)).2.1

/-- `interface FMPSearchResult` from `src/lib/market-data.ts` lines 119-125. -/
structure FMPSearchResult where
  symbol : String
  name : String
  currency : String
  stockExchange : String
  exchangeShortName : String
deriving Repr, DecidableEq

/-- `interface FMPProfile` from `src/lib/market-data.ts` lines 167-200,
restricted to the fields `searchStocks` reads (`symbol`, `companyName`,
`sector`); the many remaining profile fields are not consulted on this path
and are elided. -/
structure FMPProfile where
  symbol : String
  companyName : String
  sector : String
deriving Repr, DecidableEq

/-- `new Map(profiles.map(p => [p.symbol, p]))` followed by `.get(symbol)`:
for duplicate symbols the last profile wins. -/
def profileLookup (profiles : List FMPProfile) (symbol : String) :
    Option FMPProfile :=
  profiles.reverse.find? fun p => p.symbol == symbol

/-- The `Stock` built for one quote in `searchStocks`
(`src/lib/market-data.ts` lines 344-358); `||` fallbacks on strings treat the
empty string as falsy. -/
def fmpSearchToStock (profiles : List FMPProfile) (q : FMPQuote) : Stock :=
  let profile := profileLookup profiles q.symbol
  { ticker := q.symbol
    name :=
      if q.name ≠ "" then q.name
      else match profile with
        | some p => if p.companyName ≠ "" then p.companyName else q.symbol
        | none => q.symbol
    price := q.price
    change := q.change
    changePercent := q.changesPercentage
    marketCap := q.marketCap
    sector :=
      match profile with
      | some p => if p.sector ≠ "" then p.sector else "Unknown"
      | none => "Unknown"
    exchange := q.exchange
    volume := some q.volume
    avgVolume := some q.avgVolume }

/-- `searchStocks` from `src/lib/market-data.ts` lines 293-367, with the three
upstream fetches (search, batch quotes, batch profiles) given as oracles.
A zero-result search, an all-foreign symbol list, and an empty quote response
each return `[]` early — before the `serverCache.set` at the end; only the
full pipeline caches its (quality-filtered) result. -/
def searchStocksFMP (st : GatewayState (List Stock)) (now : Millis)
    (today : String) (query : String)
    (searchOutcome : FetchOutcome (List FMPSearchResult))
    (quotesOutcome : FetchOutcome (List FMPQuote))
    (profilesOutcome : FetchOutcome (List FMPProfile)) :
    Except FmpError (List Stock) × GatewayState (List Stock) :=
  if jsTrim query = "" then (.ok [], st)
  else
    let cacheKey := "search:" ++ jsTrim (jsToLower query)
    match st.cache.get now cacheKey with
    | (some cached, c1) => (.ok cached, { st with cache := c1 })
    | (none, c1) =>
      match fmpFetch st.limiter today st.upstreamCalls searchOutcome with
      | (.error e, lim1, calls1) => (.error e, ⟨c1, lim1, calls1⟩)
      | (.ok searchResults, lim1, calls1) =>
        if searchResults.isEmpty then (.ok [], ⟨c1, lim1, calls1⟩)
        else
          let symbols :=
            (((searchResults.filter fun r =>
                (["NYSE", "NASDAQ", "AMEX"] : List String).contains
                  r.exchangeShortName)).take 20).map (·.symbol)
          if symbols.isEmpty then (.ok [], ⟨c1, lim1, calls1⟩)
          else
            match fmpFetch lim1 today calls1 quotesOutcome with
            | (.error e, lim2, calls2) => (.error e, ⟨c1, lim2, calls2⟩)
            | (.ok quotes, lim2, calls2) =>
              if quotes.isEmpty then (.ok [], ⟨c1, lim2, calls2⟩)
              else
                let profilesRun := fmpFetch lim2 today calls2 profilesOutcome
                let profiles := match profilesRun.1 with
                  | .error _ => []
                  | .ok ps => ps
                let lim3 := profilesRun.2.1
                let calls3 := profilesRun.2.2
                let stocks := quotes.map (fmpSearchToStock profiles)
                let filteredStocks :=
                  applyQualityFilters stocks DEFAULT_QUALITY_FILTERS
                (.ok filteredStocks,
                 ⟨c1.set now cacheKey filteredStocks CACHE_TTL_SEARCH, lim3,
                  calls3⟩)

/-- Claim C9, counterexample: a search whose upstream call succeeds with zero
results returns an empty (non-error) list but does not cache it, so an
immediate repeat of the same query misses the cache and makes another
upstream call (the upstream-call count rises from 1 to 2, and the cache holds
nothing under the query's key). -/
theorem search_empty_not_cached_cex :
    ((searchStocksFMP ⟨MemoryCache.empty, RateLimiter.init "2024-01-01" 250, 0⟩
        0 "2024-01-01" "zzz" (.ok (.ok [])) (.ok (.ok []))
        (.ok (.ok []))).1 = .ok []) ∧
    ((searchStocksFMP ⟨MemoryCache.empty, RateLimiter.init "2024-01-01" 250, 0⟩
        0 "2024-01-01" "zzz" (.ok (.ok [])) (.ok (.ok []))
        (.ok (.ok []))).2.cache "search:zzz" = none) ∧
    ((searchStocksFMP ⟨MemoryCache.empty, RateLimiter.init "2024-01-01" 250, 0⟩
        0 "2024-01-01" "zzz" (.ok (.ok [])) (.ok (.ok []))
        (.ok (.ok []))).2.upstreamCalls = 1) ∧
    ((searchStocksFMP
        (searchStocksFMP ⟨MemoryCache.empty, RateLimiter.init "2024-01-01" 250, 0⟩
          0 "2024-01-01" "zzz" (.ok (.ok [])) (.ok (.ok [])) (.ok (.ok []))).2
        0 "2024-01-01" "zzz" (.ok (.ok [])) (.ok (.ok []))
        (.ok (.ok []))).2.upstreamCalls = 2) := by
  refine ⟨?_, ?_, ?_, ?_⟩ <;>
    simp [searchStocksFMP, fmpFetch, MemoryCache.get, MemoryCache.empty,
      RateLimiter.init, RateLimiter.canMakeCall, RateLimiter.recordCall,
      RateLimiter.resetIfNewDay, jsTrim, jsToLower]

/-- Claim C9, amended: a successful upstream search returning zero results is
a valid non-error empty outcome, but it is returned without being cached —
the gateway state keeps the (missing) cache entry, the call is counted, and a
repeat of the query within the TTL will call upstream again.  Only a run that
reaches the end of the pipeline caches its filtered result list. -/
theorem search_empty_result_uncached (st : GatewayState (List Stock))
    (now : Millis) (today query : String)
    (quotesOutcome : FetchOutcome (List FMPQuote))
    (profilesOutcome : FetchOutcome (List FMPProfile))
    (hq : jsTrim query ≠ "")
    (hmiss : (st.cache.get now ("search:" ++ jsTrim (jsToLower query))).1 = none)
    (hcan : (st.limiter.canMakeCall today).1 = true) :
    searchStocksFMP st now today query (.ok (.ok [])) quotesOutcome
        profilesOutcome =
      (.ok [],
       ⟨(st.cache.get now ("search:" ++ jsTrim (jsToLower query))).2,
        ((st.limiter.canMakeCall today).2).recordCall today,
        st.upstreamCalls + 1⟩) := by
  rcases hpair : st.cache.get now ("search:" ++ jsTrim (jsToLower query))
    with ⟨o, c1⟩
  have ho : o = none := by
    rw [hpair] at hmiss
    exact hmiss
  subst ho
  rcases hcm : st.limiter.canMakeCall today with ⟨b, lim1⟩
  rw [hcm] at hcan
  have hb : b = true := hcan
  subst hb
  simp [searchStocksFMP, fmpFetch, hq, hpair, hcm]

theorem search_empty_result_uncached_witness :
    searchStocksFMP ⟨MemoryCache.empty, RateLimiter.init "2024-01-01" 250, 0⟩
        0 "2024-01-01" "zzz" (.ok (.ok [])) (.ok (.ok [])) (.ok (.ok [])) =
      (.ok [],
       ⟨((MemoryCache.empty : MemoryCache (List Stock)).get 0
           ("search:" ++ jsTrim (jsToLower "zzz"))).2,
        (((RateLimiter.init "2024-01-01" 250).canMakeCall
            "2024-01-01").2).recordCall "2024-01-01",
        0 + 1⟩) := by
  exact search_empty_result_uncached _ 0 "2024-01-01" "zzz" (.ok (.ok []))
    (.ok (.ok [])) (by decide) (by decide) (by decide)

/-- `interface FinnhubQuote` from `src/lib/finnhub.ts` lines 19-28. -/
structure FinnhubQuote where
  c : ℚ
  d : ℚ
  dp : ℚ
  h : ℚ
  l : ℚ
  o : ℚ
  pc : ℚ
  t : ℕ
deriving Repr, DecidableEq

/-- The Finnhub error conditions the gateway logic distinguishes
(`FinnhubError` in `src/lib/finnhub.ts`). -/
inductive FinnhubErr where
  | rateLimit
  | upstream (msg : String)
  | noQuote (ticker : String)
deriving Repr, DecidableEq

/-- The `FinnhubRateLimiter` from `src/lib/finnhub.ts` lines 72-98: a sliding
one-minute window of call timestamps. -/
structure FinnhubRateLimiter where
  calls : List ℕ
deriving Repr, DecidableEq

/-- `maxCallsPerMinute` (60 on the free tier). -/
def FINNHUB_MAX_PER_MINUTE : ℕ := 60

namespace FinnhubRateLimiter

/-- `cleanup`: drop timestamps older than one minute (`t > Date.now() - 60000`,
evaluated over the integers since JavaScript subtraction can go negative). -/
def cleanup (r : FinnhubRateLimiter) (now : Millis) : FinnhubRateLimiter :=
  ⟨r.calls.filter fun t => decide ((now : ℤ) - 60000 < (t : ℤ))⟩

/-- `canMakeCall`: cleanup, then compare the window size to the limit. -/
def canMakeCall (r : FinnhubRateLimiter) (now : Millis) :
    Bool × FinnhubRateLimiter :=
  let r' := r.cleanup now
  (r'.calls.length < FINNHUB_MAX_PER_MINUTE, r')

/-- `recordCall`: push the current timestamp. -/
def recordCall (r : FinnhubRateLimiter) (now : Millis) : FinnhubRateLimiter :=
  ⟨r.calls ++ [now]⟩

end FinnhubRateLimiter

/-- `finnhubFetch` from `src/lib/finnhub.ts` lines 116-194: same shape as
`fmpFetch` — rate check first (throwing without fetching or recording),
`recordCall` once the fetch returns, processing errors propagated. -/
def finnhubFetch {T : Type} (lim : FinnhubRateLimiter) (now : Millis)
    (upstreamCalls : ℕ) (outcome : FetchOutcome T) :
    Except FinnhubErr T × FinnhubRateLimiter × ℕ :=
  match lim.canMakeCall now with
  | (false, lim1) => (.error .rateLimit, lim1, upstreamCalls)
  | (true, lim1) =>
    match outcome with
    | .error e => (.error (.upstream e), lim1, upstreamCalls + 1)
    | .ok resp =>
      let lim2 := lim1.recordCall now
      match resp with
      | .error e => (.error (.upstream e), lim2, upstreamCalls + 1)
      | .ok t => (.ok t, lim2, upstreamCalls + 1)

/-- The Finnhub-side state threaded through quote operations. -/
structure FinnhubState where
  cache : MemoryCache Quote
  limiter : FinnhubRateLimiter
  upstreamCalls : ℕ

/-- The `Quote` built in Finnhub's `getQuote`
(`src/lib/finnhub.ts` lines 291-302); the quote endpoint has no volume. -/
def finnhubQuoteToQuote (ticker : String) (q : FinnhubQuote) : Quote :=
  { ticker := jsToUpper ticker
    price := q.c
    openPrice := q.o
    high := q.h
    low := q.l
    previousClose := q.pc
    volume := 0
    change := q.d
    changePercent := q.dp
    timestamp := q.t * 1000 }

/-- `getQuote` from `src/lib/finnhub.ts` lines 277-307: cache hit short
circuits; a zero current price is the "no quote found" error; a fresh quote
is cached for `CACHE_TTL.QUOTE`. -/
def getQuoteFinnhub (st : FinnhubState) (now : Millis) (ticker : String)
    (outcome : FetchOutcome FinnhubQuote) :
    Except FinnhubErr Quote × FinnhubState :=
  let cacheKey := "finnhub:quote:" ++ jsToUpper ticker
  match st.cache.get now cacheKey with
  | (some q, c1) => (.ok q, { st with cache := c1 })
  | (none, c1) =>
    match finnhubFetch st.limiter now st.upstreamCalls outcome with
    | (.error e, lim1, calls1) => (.error e, ⟨c1, lim1, calls1⟩)
    | (.ok q, lim1, calls1) =>
      if q.c = 0 then (.error (.noQuote ticker), ⟨c1, lim1, calls1⟩)
      else
        let quote := finnhubQuoteToQuote ticker q
        (.ok quote,
         ⟨c1.set now cacheKey quote CACHE_TTL_QUOTE, lim1, calls1⟩)

/-- `getBatchQuotes` from `src/lib/finnhub.ts` lines 312-326: fetch each
ticker individually (Finnhub has no batch endpoint), keep the successes in
order, silently skip the failures.  `oracle` gives each ticker's fetch
outcome. -/
def getBatchQuotes (st : FinnhubState) (now : Millis) (tickers : List String)
    (oracle : String → FetchOutcome FinnhubQuote) :
    List Quote × FinnhubState :=
  match tickers with
  | [] => ([], st)
  | ticker :: rest =>
    match getQuoteFinnhub st now ticker (oracle ticker) with
    | (.ok q, st') =>
      let tail := getBatchQuotes st' now rest oracle
      (q :: tail.1, tail.2)
    | (.error _, st') => getBatchQuotes st' now rest oracle

/-- The per-ticker outcome trace of the same sequential run: `some q` where
the individual `getQuote` succeeded, `none` where it threw. -/
def batchOutcomes (st : FinnhubState) (now : Millis) (tickers : List String)
    (oracle : String → FetchOutcome FinnhubQuote) : List (Option Quote) :=
  match tickers with
  | [] => []
  | ticker :: rest =>
    match getQuoteFinnhub st now ticker (oracle ticker) with
    | (.ok q, st') => some q :: batchOutcomes st' now rest oracle
    | (.error _, st') => none :: batchOutcomes st' now rest oracle

/-- Claim C10: `getBatchQuotes` is total (it returns a plain list, never an
error): its result is exactly the per-ticker outcome trace with the failures
dropped — one outcome per input ticker, successes kept in input order — and
when every ticker fails the result is the empty list. -/
theorem batch_quotes_drop_failures (st : FinnhubState) (now : Millis)
    (tickers : List String) (oracle : String → FetchOutcome FinnhubQuote) :
    (getBatchQuotes st now tickers oracle).1 =
      (batchOutcomes st now tickers oracle).reduceOption ∧
    (batchOutcomes st now tickers oracle).length = tickers.length ∧
    ((∀ o ∈ batchOutcomes st now tickers oracle, o = none) →
      (getBatchQuotes st now tickers oracle).1 = []) := by
  refine ⟨?_, ?_, ?_⟩
  · induction tickers generalizing st with
    | nil => simp [getBatchQuotes, batchOutcomes]
    | cons ticker rest ih =>
      rcases hstep : getQuoteFinnhub st now ticker (oracle ticker) with ⟨res, st'⟩
      cases res with
      | ok q =>
        simp [getBatchQuotes, batchOutcomes, hstep, List.reduceOption_cons_of_some,
          ih st']
      | error e =>
        simp [getBatchQuotes, batchOutcomes, hstep, List.reduceOption_cons_of_none,
          ih st']
  · induction tickers generalizing st with
    | nil => simp [batchOutcomes]
    | cons ticker rest ih =>
      rcases hstep : getQuoteFinnhub st now ticker (oracle ticker) with ⟨res, st'⟩
      cases res with
      | ok q => simp [batchOutcomes, hstep, ih st']
      | error e => simp [batchOutcomes, hstep, ih st']
  · intro hall
    induction tickers generalizing st with
    | nil => simp [getBatchQuotes]
    | cons ticker rest ih =>
      rcases hstep : getQuoteFinnhub st now ticker (oracle ticker) with ⟨res, st'⟩
      cases res with
      | ok q =>
        exfalso
        have := hall (some q) (by simp [batchOutcomes, hstep])
        exact Option.some_ne_none q this
      | error e =>
        rw [getBatchQuotes]
        rw [hstep]
        exact ih st' fun o ho => hall o (by simp [batchOutcomes, hstep, ho])

theorem batch_quotes_drop_failures_witness :
    (getBatchQuotes ⟨MemoryCache.empty, ⟨[]⟩, 0⟩ 0 ["AAPL", "MSFT"]
        (fun _ => .error "network down")).1 = [] := by
  exact (batch_quotes_drop_failures ⟨MemoryCache.empty, ⟨[]⟩, 0⟩ 0
    ["AAPL", "MSFT"] (fun _ => .error "network down")).2.2 (by decide)

end StockWatch
